import Mathlib

/-!
Shallow embedding of the goal-scroller overlay
(`src/overlay/everylunaever/bunathon2025/goal_scroller/scripts.mjs`).

The scroller state machine, the done-index computation and the slot
projector are translated below as executable Lean functions; JS numbers
that only ever hold integral values (point thresholds, indices, counts)
are modelled as `Int`, and `number | null` as `Option Int`.
-/

namespace GoalScroller

/-- Lifecycle state of a goal slot (`GoalState` in `index.d.ts`). -/
inductive GoalState
  | active
  | completed
  | upcoming
deriving DecidableEq, Repr

/-- One entry of `config.goals`: a point threshold plus display text. -/
structure GoalConfig where
  points : Int
  text : String
  subtext : Option String := none
deriving DecidableEq, Repr

/-- `Array.prototype.findLastIndex`: index of the last element satisfying
`p`, or `-1` when none does. -/
def jsFindLastIndex (p : α → Bool) : List α → Int
  | [] => -1
  | a :: as =>
    let r := jsFindLastIndex p as
    if 0 ≤ r then r + 1 else if p a then 0 else -1

/-- `calculateDoneIndex` (scripts.mjs line 156): the last catalog index whose
threshold is at most `points`, or `none` when the `findLastIndex` result is
negative. -/
def calculateDoneIndex (goals : List GoalConfig) (points : Int) : Option Int :=
  let index := jsFindLastIndex (fun x => decide (x.points ≤ points)) goals
  if index < 0 then none else some index

/-- The seven `ScrollerAnimation` variants (`type` field in `index.d.ts`). -/
inductive PhaseType
  | static
  | upBegin
  | upMoving
  | upEnd
  | downBegin
  | downMoving
  | downEnd
deriving DecidableEq, Repr

/-- A `ScrollerAnimation` value: the phase tag, its `doneIndex`, and whether
`activeTimeout` is set (the armed one-shot timer handle, modelled as a
flag). -/
structure ScrollerAnimation where
  type : PhaseType
  doneIndex : Option Int
  activeTimeout : Bool := false
deriving DecidableEq, Repr

/-- `initializeAnimation` (scripts.mjs line 165): the starting phase is
`static` at the done index computed from the initial points. -/
def initAnimation (goals : List GoalConfig) (initialPoints : Int) : ScrollerAnimation :=
  { type := .static, doneIndex := calculateDoneIndex goals initialPoints, activeTimeout := false }

/-- The part of `UIModel` the state machine reads and writes:
`totalPoints` (`number | null`, with `none` also covering the initial
`undefined`) and the current animation. -/
structure UIModel where
  totalPoints : Option Int
  animation : ScrollerAnimation
deriving DecidableEq, Repr

/-- The JS nullish coalescing `d ?? -1` used for done-index comparisons. -/
def nullishIdx (d : Option Int) : Int := d.getD (-1)

/-- `startAnimation` inside `updateScrollerAnimation` (scripts.mjs line 220):
pick the downward or upward begin phase by comparing `current ?? -1` with
`target ?? -1`. -/
def startAnimation (cur tgt : Option Int) : ScrollerAnimation :=
  if nullishIdx cur > nullishIdx tgt then
    { type := .downBegin, doneIndex := cur, activeTimeout := false }
  else
    { type := .upBegin, doneIndex := some (nullishIdx cur + 1), activeTimeout := false }

/-- Outcome of the `switch` in `updateScrollerAnimation`: either an early
`return` (timer left unarmed) or fall-through to the arming code. -/
inductive StepOutcome
  | ret (a : ScrollerAnimation)
  | arm (a : ScrollerAnimation)
deriving DecidableEq, Repr

/-- The `switch (animation.type)` of `updateScrollerAnimation`
(scripts.mjs lines 238-296), with `cur` the doneIndex read before the
switch and `tgt` the freshly computed target done index. An early
`return` becomes `.ret`, a `break` that reaches the arming code becomes
`.arm`. -/
def advancePhase (cur tgt : Option Int) (a : ScrollerAnimation) : StepOutcome :=
  match a.type with
  | .static =>
    if cur = tgt then .ret a
    else .arm (startAnimation cur tgt)
  | .upEnd =>
    if cur = tgt then .ret { type := .static, doneIndex := a.doneIndex, activeTimeout := false }
    else .arm { type := .static, doneIndex := a.doneIndex, activeTimeout := false }
  | .downEnd =>
    if cur = tgt then .ret { type := .static, doneIndex := a.doneIndex, activeTimeout := false }
    else .arm { type := .static, doneIndex := a.doneIndex, activeTimeout := false }
  | .upBegin => .arm { type := .upMoving, doneIndex := a.doneIndex, activeTimeout := false }
  | .upMoving => .arm { type := .upEnd, doneIndex := a.doneIndex, activeTimeout := false }
  | .downBegin => .arm { type := .downMoving, doneIndex := a.doneIndex, activeTimeout := false }
  | .downMoving =>
    .arm { type := .downEnd,
           doneIndex := match a.doneIndex with
             | none => none
             | some d => if d = 0 then none else some (d - 1),
           activeTimeout := false }

/-- After the switch: a fall-through arms `activeTimeout`
(scripts.mjs line 299), an early return leaves it clear. -/
def applyAdvance : StepOutcome → ScrollerAnimation
  | .ret a => a
  | .arm a => { a with activeTimeout := true }

/-- `updateScrollerAnimation` (scripts.mjs lines 204-304): no-op when the
timer is armed or `totalPoints` is not a number; otherwise run the phase
switch and arm the timer exactly when the switch fell through. -/
def updateScrollerAnimation (goals : List GoalConfig) (m : UIModel) : UIModel :=
  if m.animation.activeTimeout then m
  else
    match m.totalPoints with
    | none => m
    | some totalPoints =>
      let tgt := calculateDoneIndex goals totalPoints
      { m with animation := applyAdvance (advancePhase m.animation.doneIndex tgt m.animation) }

/-- The `setTimeout` callback (scripts.mjs lines 299-303): clear the armed
flag, then `renderGoals` runs `updateScrollerAnimation` again. -/
def timerExpiry (goals : List GoalConfig) (m : UIModel) : UIModel :=
  updateScrollerAnimation goals
    { m with animation := { m.animation with activeTimeout := false } }

/-- The `GoalAnimation` transition tags (`index.d.ts`). -/
inductive GoalAnimation
  | up
  | down
  | clear
  | noBoxShadow
deriving DecidableEq, Repr

/-- The record `determineGoalInfo` returns for a visible slot. -/
structure GoalInfo where
  state : GoalState
  position : Int
  animation : Option GoalAnimation
deriving DecidableEq, Repr

/-- JS truthiness of `scrollAnimation.doneIndex` (a `number | null`):
truthy exactly when it is a number other than `0`. -/
def truthyIdx : Option Int → Bool
  | none => false
  | some d => d ≠ 0

/-- The optional-chained array access `levels?.[i]`: `none` when `levels`
is absent or `i` is out of bounds. -/
def jsLevelAt (levels : Option (List GoalState)) (i : Int) : Option GoalState :=
  match levels with
  | none => none
  | some l => if 0 ≤ i then l.get? i.toNat else none

/-- The `levels` IIFE inside `determineGoalInfo` (scripts.mjs lines
322-337): compressed level sets for `remaining` 1, 2, 3, plus the special
`doneIndex === null && type === "downwards:end"` case. -/
def scrollerLevels (t : PhaseType) (doneIndex : Option Int) (remaining : Int) :
    Option (List GoalState) :=
  if remaining = 1 then some [.completed, .completed, .completed, .completed]
  else if remaining = 2 then some [.completed, .completed, .completed, .active]
  else if remaining = 3 then some [.completed, .completed, .active, .upcoming]
  else if doneIndex = none ∧ t = .downEnd then
    some [.active, .active, .upcoming, .upcoming]
  else none

/-- The `elementAnimation` IIFE inside `determineGoalInfo` (scripts.mjs
lines 339-366), returned as the `(covered, others)` pair. -/
def scrollerElementAnimation (t : PhaseType) (doneIndex : Option Int) (remaining : Int) :
    Option GoalAnimation × Option GoalAnimation :=
  match t with
  | .static => (none, some .clear)
  | .upBegin => (none, none)
  | .upMoving =>
    (none, if doneIndex = some 0 ∨ remaining ≤ 2 then none else some .up)
  | .upEnd =>
    (some .noBoxShadow, if doneIndex = some 0 ∨ remaining ≤ 2 then none else some .up)
  | .downBegin =>
    (some .noBoxShadow, if truthyIdx doneIndex ∧ 2 < remaining then some .down else none)
  | .downMoving =>
    (none, if truthyIdx doneIndex ∧ 2 < remaining then some .down else none)
  | .downEnd =>
    (some .noBoxShadow, if truthyIdx doneIndex ∧ 2 < remaining then some .clear else none)

/-- `determineGoalInfo` (scripts.mjs lines 312-411). `goalsLength` is
`model.goals.length`; the `goal` parameter of the source is never read, so
it is omitted. `none` models the `undefined` returns (slot not visible). -/
def determineGoalInfo (goalsLength : Int) (sa : ScrollerAnimation) (index : Int) :
    Option GoalInfo :=
  let position := index - (sa.doneIndex.getD 0)
  if position < -2 then none
  else
    let remaining := goalsLength - (sa.doneIndex.getD 0)
    let levels := scrollerLevels sa.type sa.doneIndex remaining
    let ea := scrollerElementAnimation sa.type sa.doneIndex remaining
    let picker := position + (if remaining ≤ 3 then 3 - remaining else 0)
    let positionOffset : Int := if 1 ≤ sa.doneIndex.getD (-1) ∧ 3 ≤ remaining then 1 else 0
    match sa.type with
    | .static =>
      if sa.doneIndex = none then
        if picker = 0 then
          some ⟨(jsLevelAt levels (picker + 1)).getD .active, picker, ea.2⟩
        else if picker = 1 then
          some ⟨(jsLevelAt levels (picker + 1)).getD .upcoming, picker, ea.2⟩
        else if picker = 2 then
          some ⟨(jsLevelAt levels (picker + 1)).getD .upcoming, picker, ea.2⟩
        else none
      else
        if picker = 0 then
          some ⟨(jsLevelAt levels (picker + 1)).getD .completed, picker, ea.2⟩
        else if picker = 1 then
          some ⟨(jsLevelAt levels (picker + 1)).getD .active, picker, ea.2⟩
        else if picker = 2 then
          some ⟨(jsLevelAt levels (picker + 1)).getD .upcoming, picker, ea.2⟩
        else none
    | .upBegin | .upMoving | .upEnd | .downBegin | .downMoving | .downEnd =>
      if picker = -1 then
        if remaining ≤ 2 then none
        else some ⟨(jsLevelAt levels (picker + 1)).getD .completed, picker + positionOffset, ea.1⟩
      else if picker = 0 then
        some ⟨(jsLevelAt levels (picker + 1)).getD .completed, picker + positionOffset, ea.2⟩
      else if picker = 1 then
        some ⟨(jsLevelAt levels (picker + 1)).getD .active, picker + positionOffset, ea.2⟩
      else if picker = 2 then
        some ⟨(jsLevelAt levels (picker + 1)).getD .upcoming, picker + positionOffset, ea.2⟩
      else none

/-- Abstract model of a `CryptoKey` obtained from `crypto.importKey`. -/
structure CryptoKeyModel where
  id : Nat
deriving DecidableEq, Repr

/-- `tryLoadKeyFromSearch` (scripts.mjs lines 81-91). `keyParam` is the
`key` URL query parameter (`none` when absent); `importKey` abstracts
`crypto.importKey`, with `none` modelling a thrown exception caught by the
surrounding `try`. The guard rejects a missing or empty value and any
length outside 43-44. -/
def tryLoadKeyFromSearch (keyParam : Option String)
    (importKey : String → Option CryptoKeyModel) : Option CryptoKeyModel :=
  match keyParam with
  | none => none
  | some base64 =>
    if base64 = "" ∨ base64.length < 43 ∨ 44 < base64.length then none
    else importKey base64

/-- `createStateLoader` (scripts.mjs lines 80-131): when no key loads, no
fetch function is produced; otherwise the bucket URL is decrypted and a
fetch closure over it is returned (modelled by the URL itself). -/
def createStateLoader (keyParam : Option String)
    (importKey : String → Option CryptoKeyModel)
    (decryptUrl : CryptoKeyModel → String) : Option String :=
  match tryLoadKeyFromSearch keyParam importKey with
  | none => none
  | some key => some (decryptUrl key)

/-- Outcome of `main` (scripts.mjs lines 535-554): either it renders
"Invalid key" and returns without polling, or it starts the polling loop
against the decrypted URL. -/
inductive MainOutcome
  | invalidKey
  | startPolling (url : String)
deriving DecidableEq, Repr

/-- `main` (scripts.mjs lines 535-554), projected to its control-flow
outcome: with no state loader it sets the counter text to "Invalid key"
and returns; otherwise it polls `fetchState` on an interval. -/
def main (keyParam : Option String)
    (importKey : String → Option CryptoKeyModel)
    (decryptUrl : CryptoKeyModel → String) : MainOutcome :=
  match createStateLoader keyParam importKey decryptUrl with
  | none => .invalidKey
  | some url => .startPolling url

/-- States of the scroller model reachable from startup: the initial model
(any initial points for the catalog scan, any buffered `totalPoints`),
closed under `setTotalPoints`, `updateScrollerAnimation` calls, and the
timer-expiry callback clearing the armed flag. -/
inductive Reachable (goals : List GoalConfig) : UIModel → Prop
  | init (p : Int) (tp : Option Int) :
      Reachable goals ⟨tp, initAnimation goals p⟩
  | setPoints {m : UIModel} (tp : Option Int) :
      Reachable goals m → Reachable goals ⟨tp, m.animation⟩
  | update {m : UIModel} :
      Reachable goals m → Reachable goals (updateScrollerAnimation goals m)
  | expire {m : UIModel} :
      Reachable goals m →
      Reachable goals ⟨m.totalPoints, { m.animation with activeTimeout := false }⟩

/-! ### Helper lemmas about `jsFindLastIndex` and `calculateDoneIndex` -/

theorem jsFindLastIndex_ge_neg_one (p : α → Bool) (l : List α) :
    -1 ≤ jsFindLastIndex p l := by
  induction l with
  | nil => simp [jsFindLastIndex]
  | cons a as ih =>
    simp only [jsFindLastIndex]
    split
    · omega
    · split <;> omega

theorem jsFindLastIndex_lt_length (p : α → Bool) (l : List α) :
    jsFindLastIndex p l < l.length := by
  induction l with
  | nil => simp [jsFindLastIndex]
  | cons a as ih =>
    simp only [jsFindLastIndex, List.length_cons]
    split
    · push_cast; omega
    · split <;> (push_cast; omega)

theorem jsFindLastIndex_spec (p : α → Bool) (l : List α) :
    (jsFindLastIndex p l = -1 ∧ ∀ i (h : i < l.length), p (l.get ⟨i, h⟩) = false) ∨
    (∃ i, ∃ h : i < l.length, jsFindLastIndex p l = (i : Int) ∧ p (l.get ⟨i, h⟩) = true ∧
      ∀ j (hj : j < l.length), i < j → p (l.get ⟨j, hj⟩) = false) := by
  induction l with
  | nil =>
    left
    exact ⟨rfl, fun i h => absurd h (Nat.not_lt_zero i)⟩
  | cons a as ih =>
    rcases ih with ⟨hr, hall⟩ | ⟨i, hi, hr, hp, hafter⟩
    · by_cases hpa : p a = true
      · right
        refine ⟨0, Nat.succ_pos _, ?_, hpa, ?_⟩
        · simp [jsFindLastIndex, hr, hpa]
        · intro j hj hjpos
          match j, hj with
          | j + 1, hj => exact hall j (Nat.lt_of_succ_lt_succ hj)
      · left
        refine ⟨?_, ?_⟩
        · simp only [jsFindLastIndex, hr]
          norm_num [hpa]
        · intro i h
          match i, h with
          | 0, _ => simpa using hpa
          | i + 1, h => exact hall i (Nat.lt_of_succ_lt_succ h)
    · right
      refine ⟨i + 1, Nat.succ_lt_succ hi, ?_, by simpa using hp, ?_⟩
      · have h0 : (0 : Int) ≤ (i : Int) := Int.ofNat_nonneg i
        simp only [jsFindLastIndex, hr]
        rw [if_pos h0]
        push_cast
        ring
      · intro j hj hij
        match j, hj with
        | j + 1, hj => exact hafter j (Nat.lt_of_succ_lt_succ hj) (Nat.lt_of_succ_lt_succ hij)

theorem jsFindLastIndex_mono (p q : α → Bool) (hpq : ∀ a, p a = true → q a = true)
    (l : List α) : jsFindLastIndex p l ≤ jsFindLastIndex q l := by
  induction l with
  | nil => simp [jsFindLastIndex]
  | cons a as ih =>
    have hq := jsFindLastIndex_ge_neg_one q as
    simp only [jsFindLastIndex]
    by_cases h1 : 0 ≤ jsFindLastIndex p as
    · rw [if_pos h1, if_pos (by omega)]
      omega
    · rw [if_neg h1]
      by_cases h2 : p a = true
      · rw [if_pos h2]
        have h3 := hpq a h2
        by_cases h4 : 0 ≤ jsFindLastIndex q as
        · rw [if_pos h4]
          omega
        · rw [if_neg h4, if_pos h3]
      · rw [if_neg h2]
        by_cases h4 : 0 ≤ jsFindLastIndex q as
        · rw [if_pos h4]
          omega
        · rw [if_neg h4]
          split <;> omega

theorem nullishIdx_calculateDoneIndex (goals : List GoalConfig) (p : Int) :
    nullishIdx (calculateDoneIndex goals p) =
      jsFindLastIndex (fun x => decide (x.points ≤ p)) goals := by
  have := jsFindLastIndex_ge_neg_one (fun x => decide (x.points ≤ p)) goals
  simp only [calculateDoneIndex, nullishIdx]
  split
  · simp only [Option.getD_none]
    omega
  · simp

theorem calculateDoneIndex_some_range (goals : List GoalConfig) (p i : Int)
    (h : calculateDoneIndex goals p = some i) : 0 ≤ i ∧ i < goals.length := by
  have hlt := jsFindLastIndex_lt_length (fun x => decide (x.points ≤ p)) goals
  simp only [calculateDoneIndex] at h
  split at h
  · exact absurd h (by simp)
  · rename_i hge
    injection h with h
    omega

theorem calculateDoneIndex_some_iff (goals : List GoalConfig) (p : Int) (i : Nat) :
    calculateDoneIndex goals p = some (i : Int) ↔
      ∃ h : i < goals.length, (goals.get ⟨i, h⟩).points ≤ p ∧
        ∀ j (hj : j < goals.length), i < j → p < (goals.get ⟨j, hj⟩).points := by
  rcases jsFindLastIndex_spec (fun x => decide (x.points ≤ p)) goals with
    ⟨hr, hall⟩ | ⟨k, hk, hr, hpk, hafter⟩
  · constructor
    · intro h
      simp only [calculateDoneIndex, hr] at h
      exact absurd h (by simp)
    · rintro ⟨hi, hle, -⟩
      have := hall i hi
      simp only [decide_eq_false_iff_not, not_le] at this
      omega
  · constructor
    · intro h
      simp only [calculateDoneIndex, hr] at h
      rw [if_neg (by omega)] at h
      injection h with h
      obtain rfl : k = i := by omega
      refine ⟨hk, by simpa using hpk, ?_⟩
      intro j hj hij
      have := hafter j hj hij
      simp only [decide_eq_false_iff_not, not_le] at this
      omega
    · rintro ⟨hi, hle, hgt⟩
      have hki : k = i := by
        rcases Nat.lt_trichotomy k i with hlt | heq | hgt'
        · have := hafter i hi hlt
          simp only [decide_eq_false_iff_not, not_le] at this
          omega
        · exact heq
        · have := hgt k hk hgt'
          have hpk' : (goals.get ⟨k, hk⟩).points ≤ p := by simpa using hpk
          omega
      subst hki
      simp only [calculateDoneIndex, hr]
      rw [if_neg (by omega)]

theorem calculateDoneIndex_none_iff (goals : List GoalConfig) (p : Int) :
    calculateDoneIndex goals p = none ↔
      ∀ j (hj : j < goals.length), p < (goals.get ⟨j, hj⟩).points := by
  rcases jsFindLastIndex_spec (fun x => decide (x.points ≤ p)) goals with
    ⟨hr, hall⟩ | ⟨k, hk, hr, hpk, hafter⟩
  · constructor
    · intro _ j hj
      have := hall j hj
      simp only [decide_eq_false_iff_not, not_le] at this
      omega
    · intro _
      simp [calculateDoneIndex, hr]
  · constructor
    · intro h
      simp only [calculateDoneIndex, hr] at h
      rw [if_neg (by omega)] at h
      exact absurd h (by simp)
    · intro hall
      have := hall k hk
      have hpk' : (goals.get ⟨k, hk⟩).points ≤ p := by simpa using hpk
      omega

/-- A small strictly-increasing example catalog, used by witnesses. -/
def exampleCatalog : List GoalConfig :=
  [⟨100, "goal1", none⟩, ⟨200, "goal2", none⟩, ⟨300, "goal3", none⟩]

/-- A five-goal strictly-increasing catalog, used by witnesses. -/
def exampleCatalog5 : List GoalConfig :=
  [⟨100, "goal1", none⟩, ⟨200, "goal2", none⟩, ⟨300, "goal3", none⟩,
   ⟨400, "goal4", none⟩, ⟨500, "goal5", none⟩]

/-- C2: for a strictly ascending catalog, `calculateDoneIndex` returns the
greatest index whose threshold is at most `totalPoints` (`none` when no
index qualifies), and it is monotone in `totalPoints`, treating `none` as
below every index (`nullishIdx`, i.e. `?? -1`). -/
theorem calculateDoneIndex_greatest_and_monotone (goals : List GoalConfig)
    (hsorted : List.Chain' (fun a b => a.points < b.points) goals)
    (p p1 p2 : Int) (hp : p1 ≤ p2) :
    (∀ i : Nat, calculateDoneIndex goals p = some (i : Int) ↔
      ∃ h : i < goals.length, (goals.get ⟨i, h⟩).points ≤ p ∧
        ∀ j (hj : j < goals.length), i < j → p < (goals.get ⟨j, hj⟩).points) ∧
    (calculateDoneIndex goals p = none ↔
      ∀ j (hj : j < goals.length), p < (goals.get ⟨j, hj⟩).points) ∧
    nullishIdx (calculateDoneIndex goals p1) ≤ nullishIdx (calculateDoneIndex goals p2) := by
  refine ⟨fun i => calculateDoneIndex_some_iff goals p i,
    calculateDoneIndex_none_iff goals p, ?_⟩
  rw [nullishIdx_calculateDoneIndex, nullishIdx_calculateDoneIndex]
  refine jsFindLastIndex_mono _ _ (fun a ha => ?_) goals
  simp only [decide_eq_true_eq] at ha ⊢
  omega

/-- Witness for C2 at the catalog `[100, 200, 300]` with
`p = 250`, `p1 = 100`, `p2 = 250`. -/
theorem calculateDoneIndex_greatest_and_monotone_witness :
    List.Chain' (fun a b => a.points < b.points) exampleCatalog ∧
    (100 : Int) ≤ 250 ∧
    ((∀ i : Nat, calculateDoneIndex exampleCatalog 250 = some (i : Int) ↔
        ∃ h : i < exampleCatalog.length, (exampleCatalog.get ⟨i, h⟩).points ≤ 250 ∧
          ∀ j (hj : j < exampleCatalog.length), i < j →
            250 < (exampleCatalog.get ⟨j, hj⟩).points) ∧
      (calculateDoneIndex exampleCatalog 250 = none ↔
        ∀ j (hj : j < exampleCatalog.length), 250 < (exampleCatalog.get ⟨j, hj⟩).points) ∧
      nullishIdx (calculateDoneIndex exampleCatalog 100) ≤
        nullishIdx (calculateDoneIndex exampleCatalog 250)) :=
  ⟨by simp [exampleCatalog], by decide,
    calculateDoneIndex_greatest_and_monotone exampleCatalog (by simp [exampleCatalog])
      250 100 250 (by decide)⟩

/-! ### Trace lemmas for the state machine -/

/-- One unarmed step of the phase switch followed by the arming rule,
starting from a disarmed animation (the shape every timer-expiry call
sees). -/
def stepAnim (tgt : Option Int) (a : ScrollerAnimation) : ScrollerAnimation :=
  applyAdvance (advancePhase a.doneIndex tgt { a with activeTimeout := false })

theorem timerExpiry_eq_stepAnim (goals : List GoalConfig) (tp : Int) (a : ScrollerAnimation) :
    timerExpiry goals ⟨some tp, a⟩ =
      ⟨some tp, stepAnim (calculateDoneIndex goals tp) a⟩ := by
  simp [timerExpiry, updateScrollerAnimation, stepAnim]

theorem iterate_timerExpiry (goals : List GoalConfig) (tp : Int) (a : ScrollerAnimation)
    (n : Nat) :
    (timerExpiry goals)^[n] ⟨some tp, a⟩ =
      ⟨some tp, (stepAnim (calculateDoneIndex goals tp))^[n] a⟩ := by
  induction n generalizing a with
  | zero => rfl
  | succ n ih =>
    rw [Function.iterate_succ_apply, Function.iterate_succ_apply,
      timerExpiry_eq_stepAnim, ih]

/-- C1: from `static(null)` with the target done index held at 4, the
twenty successive `updateScrollerAnimation` calls (each after the previous
phase's timer has expired, which `timerExpiry` models) walk
`upwards:begin(0), upwards:moving(0), upwards:end(0), static(0),
upwards:begin(1), …, static(4)`: one done-index increment per full
begin/moving/end cycle, never skipping an index. -/
theorem scroller_upward_catchup (goals : List GoalConfig) (tp : Int)
    (hsorted : List.Chain' (fun a b => a.points < b.points) goals)
    (htgt : calculateDoneIndex goals tp = some 4) :
    (List.range 20).map (fun k =>
        ((((timerExpiry goals)^[k + 1])
            (⟨some tp, ⟨.static, none, false⟩⟩ : UIModel)).animation.type,
         ((((timerExpiry goals)^[k + 1])
            (⟨some tp, ⟨.static, none, false⟩⟩ : UIModel)).animation.doneIndex))) =
      [(.upBegin, some 0), (.upMoving, some 0), (.upEnd, some 0), (.static, some 0),
       (.upBegin, some 1), (.upMoving, some 1), (.upEnd, some 1), (.static, some 1),
       (.upBegin, some 2), (.upMoving, some 2), (.upEnd, some 2), (.static, some 2),
       (.upBegin, some 3), (.upMoving, some 3), (.upEnd, some 3), (.static, some 3),
       (.upBegin, some 4), (.upMoving, some 4), (.upEnd, some 4), (.static, some 4)] := by
  simp only [iterate_timerExpiry, htgt]
  decide

/-- Witness for C1 at the five-goal catalog with `tp = 500`. -/
theorem scroller_upward_catchup_witness :
    calculateDoneIndex exampleCatalog5 500 = some 4 ∧
    (List.range 20).map (fun k =>
        ((((timerExpiry exampleCatalog5)^[k + 1])
            (⟨some 500, ⟨.static, none, false⟩⟩ : UIModel)).animation.type,
         ((((timerExpiry exampleCatalog5)^[k + 1])
            (⟨some 500, ⟨.static, none, false⟩⟩ : UIModel)).animation.doneIndex))) =
      [(.upBegin, some 0), (.upMoving, some 0), (.upEnd, some 0), (.static, some 0),
       (.upBegin, some 1), (.upMoving, some 1), (.upEnd, some 1), (.static, some 1),
       (.upBegin, some 2), (.upMoving, some 2), (.upEnd, some 2), (.static, some 2),
       (.upBegin, some 3), (.upMoving, some 3), (.upEnd, some 3), (.static, some 3),
       (.upBegin, some 4), (.upMoving, some 4), (.upEnd, some 4), (.static, some 4)] :=
  ⟨by decide,
    scroller_upward_catchup exampleCatalog5 500 (by simp [exampleCatalog5]) (by decide)⟩

/-- C3: from `static(3)` with the target done index regressed to 1, the
successive timer-driven calls walk `downwards:begin(3), downwards:moving(3),
downwards:end(2), static(2)` and then the same cycle again down to
`static(1)`; and in general a `downwards:moving(d)` call yields
`downwards:end(d')` with `d' = none` when `d` is `none` or `0`, else
`d - 1`. -/
theorem scroller_downward_regression (goals : List GoalConfig) (tp : Int)
    (hsorted : List.Chain' (fun a b => a.points < b.points) goals)
    (htgt : calculateDoneIndex goals tp = some 1) :
    ((List.range 8).map (fun k =>
        ((((timerExpiry goals)^[k + 1])
            (⟨some tp, ⟨.static, some 3, false⟩⟩ : UIModel)).animation.type,
         ((((timerExpiry goals)^[k + 1])
            (⟨some tp, ⟨.static, some 3, false⟩⟩ : UIModel)).animation.doneIndex))) =
      [(.downBegin, some 3), (.downMoving, some 3), (.downEnd, some 2), (.static, some 2),
       (.downBegin, some 2), (.downMoving, some 2), (.downEnd, some 1), (.static, some 1)]) ∧
    (∀ (d : Option Int) (tp' : Int),
      (updateScrollerAnimation goals
          (⟨some tp', ⟨.downMoving, d, false⟩⟩ : UIModel)).animation =
        ⟨.downEnd, if d = none ∨ d = some 0 then none else Option.map (· - 1) d, true⟩) := by
  constructor
  · simp only [iterate_timerExpiry, htgt]
    decide
  · intro d tp'
    simp only [updateScrollerAnimation, advancePhase, applyAdvance]
    rcases d with - | d
    · rfl
    · by_cases hd : d = 0 <;> simp [hd]

/-- Witness for C3 at the five-goal catalog with `tp = 250`. -/
theorem scroller_downward_regression_witness :
    calculateDoneIndex exampleCatalog5 250 = some 1 ∧
    ((List.range 8).map (fun k =>
        ((((timerExpiry exampleCatalog5)^[k + 1])
            (⟨some 250, ⟨.static, some 3, false⟩⟩ : UIModel)).animation.type,
         ((((timerExpiry exampleCatalog5)^[k + 1])
            (⟨some 250, ⟨.static, some 3, false⟩⟩ : UIModel)).animation.doneIndex))) =
      [(.downBegin, some 3), (.downMoving, some 3), (.downEnd, some 2), (.static, some 2),
       (.downBegin, some 2), (.downMoving, some 2), (.downEnd, some 1), (.static, some 1)]) ∧
    (∀ (d : Option Int) (tp' : Int),
      (updateScrollerAnimation exampleCatalog5
          (⟨some tp', ⟨.downMoving, d, false⟩⟩ : UIModel)).animation =
        ⟨.downEnd, if d = none ∨ d = some 0 then none else Option.map (· - 1) d, true⟩) :=
  ⟨by decide,
    scroller_downward_regression exampleCatalog5 250 (by simp [exampleCatalog5]) (by decide)⟩

/-- C4: while the phase timer is armed, `updateScrollerAnimation` is a
complete no-op — the whole model, hence the phase tag, its done index and
the armed flag, is returned unchanged, whatever `totalPoints` holds. -/
theorem updateScrollerAnimation_noop_when_armed (goals : List GoalConfig) (m : UIModel)
    (h : m.animation.activeTimeout = true) :
    updateScrollerAnimation goals m = m := by
  simp [updateScrollerAnimation, h]

/-- Witness for C4: an armed `upwards:moving` state with stale points. -/
theorem updateScrollerAnimation_noop_when_armed_witness :
    updateScrollerAnimation exampleCatalog
        (⟨some 999, ⟨.upMoving, some 1, true⟩⟩ : UIModel) =
      (⟨some 999, ⟨.upMoving, some 1, true⟩⟩ : UIModel) :=
  updateScrollerAnimation_noop_when_armed exampleCatalog _ rfl

/-- C6: with `totalPoints = null` (failed fetch), any number of consecutive
`updateScrollerAnimation` calls leave the model — in particular the phase
tag and its done index — exactly unchanged. -/
theorem updateScrollerAnimation_noop_when_null_points (goals : List GoalConfig)
    (m : UIModel) (h : m.totalPoints = none) (n : Nat) :
    (updateScrollerAnimation goals)^[n] m = m := by
  have h1 : updateScrollerAnimation goals m = m := by
    unfold updateScrollerAnimation
    rw [h]
    split <;> rfl
  induction n with
  | zero => rfl
  | succ n ih => rw [Function.iterate_succ_apply, h1, ih]

/-- Witness for C6: three consecutive failed polls on a mid-animation
state. -/
theorem updateScrollerAnimation_noop_when_null_points_witness :
    (updateScrollerAnimation exampleCatalog)^[3]
        (⟨none, ⟨.downMoving, some 2, false⟩⟩ : UIModel) =
      (⟨none, ⟨.downMoving, some 2, false⟩⟩ : UIModel) :=
  updateScrollerAnimation_noop_when_null_points exampleCatalog _ rfl 3

/-- A two-goal catalog used by the timer-arming counterexample. -/
def exampleCatalog2 : List GoalConfig :=
  [⟨100, "goal1", none⟩, ⟨200, "goal2", none⟩]

/-- Counterexample to C5: starting from the initial `static(null)` state
with 250 points (target index 1), the fourth timer-driven call — a real
call, its input explicitly disarmed by the expiry callback — computes the
new phase `static(0)` and yet arms the timer, because the `upwards:end`
case falls through to the arming code whenever the done index still
differs from the target. -/
theorem timer_armed_on_static_counterexample :
    (((timerExpiry exampleCatalog2)^[3]
        (⟨some 250, ⟨.static, none, false⟩⟩ : UIModel)).animation =
      ⟨.upEnd, some 0, true⟩) ∧
    (updateScrollerAnimation exampleCatalog2
        (⟨some 250, ⟨.upEnd, some 0, false⟩⟩ : UIModel)).animation =
      ⟨.static, some 0, true⟩ := by
  decide

/-- C5 as amended: for a call on an unarmed state with numeric
`totalPoints`, the timer ends up armed iff the newly computed phase is not
`static`, or the previous phase was `upwards:end`/`downwards:end` and its
done index still differs from the target done index (in that last case the
new phase is `static` yet the timer is armed). -/
theorem scroller_timer_arming (goals : List GoalConfig) (tp : Int)
    (t : PhaseType) (d : Option Int) :
    ((updateScrollerAnimation goals
        (⟨some tp, ⟨t, d, false⟩⟩ : UIModel)).animation.activeTimeout = true ↔
      ((updateScrollerAnimation goals
          (⟨some tp, ⟨t, d, false⟩⟩ : UIModel)).animation.type ≠ .static ∨
        ((t = .upEnd ∨ t = .downEnd) ∧ d ≠ calculateDoneIndex goals tp))) := by
  cases t <;>
    · by_cases hd : d = calculateDoneIndex goals tp <;>
        simp [updateScrollerAnimation, advancePhase, applyAdvance, startAnimation, hd] <;>
        split <;> simp

theorem allCompleted_getD (fb : GoalState) (i : Int) (h0 : 0 ≤ i) (h4 : i < 4) :
    (jsLevelAt (some [.completed, .completed, .completed, .completed]) i).getD fb
      = .completed := by
  simp only [jsLevelAt]
  rw [if_pos h0]
  interval_cases i <;> rfl

set_option maxHeartbeats 1000000 in
/-- C7: whenever `remaining = goalCount - (doneIndex ?? 0)` equals 1, every
slot `determineGoalInfo` returns — for every catalog index and every phase
tag — has lifecycle state `completed`. -/
theorem slots_all_completed (L : Int) (t : PhaseType) (d : Option Int) (b : Bool)
    (index : Int) (hrem : L - d.getD 0 = 1) :
    ∀ info, determineGoalInfo L ⟨t, d, b⟩ index = some info → info.state = .completed := by
  intro info h
  cases t <;>
    · simp only [determineGoalInfo] at h
      rw [hrem] at h
      simp only [scrollerLevels, if_pos rfl] at h
      split_ifs at h <;>
        (try (injection h with h2; subst h2)) <;>
        · dsimp only
          exact allCompleted_getD _ _ (by omega) (by omega)

/-- Witness for C7: a four-goal display with `doneIndex = 3` in phase
`static`; the slot of catalog index 1 is visible and completed. -/
theorem slots_all_completed_witness :
    (4 : Int) - (some (3 : Int)).getD 0 = 1 ∧
    determineGoalInfo 4 ⟨.static, some 3, false⟩ 1 =
      some ⟨.completed, 0, some .clear⟩ ∧
    (⟨.completed, 0, some .clear⟩ : GoalInfo).state = .completed :=
  ⟨by decide, by decide,
    slots_all_completed 4 .static (some 3) false 1 (by decide)
      ⟨.completed, 0, some .clear⟩ (by decide)⟩

/-- Counterexample to C8: with six goals and `doneIndex = 2`, in phase
`upwards:begin` the covered edge slot (catalog index 1, `picker = -1`)
carries *no* transition tag rather than `no-box-shadow`; and in phase
`downwards:begin` a non-edge visible slot (catalog index 2) carries the
tag `down` rather than none. -/
theorem begin_phase_tag_counterexample :
    (determineGoalInfo 6 ⟨.upBegin, some 2, false⟩ 1).map (fun i => i.animation) =
      some none ∧
    (determineGoalInfo 6 ⟨.downBegin, some 2, false⟩ 2).map (fun i => i.animation) =
      some (some .down) := by
  decide

set_option maxHeartbeats 1000000 in
/-- C8 as amended: in `upwards:begin` every visible slot — the covered
edge slot included — carries no transition tag; in `downwards:begin` the
covered edge slot (`picker = -1`) carries `no-box-shadow` while every
other visible slot carries `down` exactly when `doneIndex` is neither
null nor 0 and `remaining > 2`, and no tag otherwise. -/
theorem begin_phase_tags (L : Int) (d : Option Int) (b : Bool) (index : Int) :
    (∀ info, determineGoalInfo L ⟨.upBegin, d, b⟩ index = some info →
      info.animation = none) ∧
    (∀ info, determineGoalInfo L ⟨.downBegin, d, b⟩ index = some info →
      info.animation =
        if index - d.getD 0 + (if L - d.getD 0 ≤ 3 then 3 - (L - d.getD 0) else 0) = -1 then
          some .noBoxShadow
        else if truthyIdx d = true ∧ 2 < L - d.getD 0 then some .down
        else none) := by
  constructor
  · intro info h
    simp only [determineGoalInfo, scrollerElementAnimation] at h
    split_ifs at h <;>
      (try (injection h with h2; subst h2)) <;>
      rfl
  · intro info h
    simp only [determineGoalInfo, scrollerElementAnimation] at h
    split_ifs at h ⊢ <;>
      (try (injection h with h2; subst h2)) <;>
      rfl

/-- Witness for the amended C8: six goals, `doneIndex = 2`; catalog index
1 is the covered edge slot of `upwards:begin` (no tag), catalog index 2 a
non-edge slot of `downwards:begin` (tag `down`). -/
theorem begin_phase_tags_witness :
    determineGoalInfo 6 ⟨.upBegin, some 2, false⟩ 1 =
      some ⟨.completed, 0, none⟩ ∧
    (⟨.completed, 0, none⟩ : GoalInfo).animation = none ∧
    (⟨.completed, 1, some .down⟩ : GoalInfo).animation =
      (if (2 : Int) - (some (2 : Int)).getD 0 +
          (if (6 : Int) - (some (2 : Int)).getD 0 ≤ 3
            then 3 - ((6 : Int) - (some (2 : Int)).getD 0) else 0) = -1 then
        some GoalAnimation.noBoxShadow
      else if truthyIdx (some 2) = true ∧ 2 < (6 : Int) - (some (2 : Int)).getD 0 then
        some GoalAnimation.down
      else none) :=
  ⟨by decide,
    (begin_phase_tags 6 (some 2) false 1).1 ⟨.completed, 0, none⟩ (by decide),
    (begin_phase_tags 6 (some 2) false 2).2 ⟨.completed, 1, some .down⟩ (by decide)⟩

/-- C9: with the `key` query parameter absent, empty, or of a length other
than 43 or 44, the state loader yields no fetch function and `main` ends in
the "Invalid key" outcome — the polling loop is never started. -/
theorem invalid_key_no_polling (keyParam : Option String)
    (importKey : String → Option CryptoKeyModel) (decryptUrl : CryptoKeyModel → String)
    (h : keyParam = none ∨ ∃ s, keyParam = some s ∧ s.length ≠ 43 ∧ s.length ≠ 44) :
    createStateLoader keyParam importKey decryptUrl = none ∧
    main keyParam importKey decryptUrl = .invalidKey := by
  have hk : tryLoadKeyFromSearch keyParam importKey = none := by
    rcases h with rfl | ⟨s, rfl, h43, h44⟩
    · rfl
    · simp only [tryLoadKeyFromSearch]
      rw [if_pos (Or.inr (by omega))]
  constructor
  · simp [createStateLoader, hk]
  · simp [main, createStateLoader, hk]

/-- Witness for C9: a five-character key parameter. -/
theorem invalid_key_no_polling_witness :
    createStateLoader (some "abcde") (fun s => some ⟨s.length⟩) (fun _ => "url") = none ∧
    main (some "abcde") (fun s => some ⟨s.length⟩) (fun _ => "url") = .invalidKey :=
  invalid_key_no_polling (some "abcde") (fun s => some ⟨s.length⟩) (fun _ => "url")
    (Or.inr ⟨"abcde", rfl, by decide, by decide⟩)

/-- A done index is `null` or an integer within the catalog bounds. -/
def validDoneIndex (goals : List GoalConfig) (d : Option Int) : Prop :=
  d = none ∨ ∃ i : Int, d = some i ∧ 0 ≤ i ∧ i < goals.length

theorem advancePhase_preserves_validDoneIndex (goals : List GoalConfig)
    (a : ScrollerAnimation) (tgt : Option Int)
    (hv : validDoneIndex goals a.doneIndex) (htgt : validDoneIndex goals tgt) :
    validDoneIndex goals (applyAdvance (advancePhase a.doneIndex tgt a)).doneIndex := by
  rcases a with ⟨t, d, bt⟩
  simp only at hv
  cases t
  case upBegin => simpa [advancePhase, applyAdvance] using hv
  case upMoving => simpa [advancePhase, applyAdvance] using hv
  case downBegin => simpa [advancePhase, applyAdvance] using hv
  case upEnd =>
    by_cases h : d = tgt <;> simpa [advancePhase, applyAdvance, h] using hv
  case downEnd =>
    by_cases h : d = tgt <;> simpa [advancePhase, applyAdvance, h] using hv
  case downMoving =>
    rcases hv with rfl | ⟨i, rfl, hi0, hiN⟩
    · exact Or.inl rfl
    · by_cases hi : i = 0
      · simp [advancePhase, applyAdvance, hi, validDoneIndex]
      · refine Or.inr ⟨i - 1, ?_, by omega, by omega⟩
        simp [advancePhase, applyAdvance, hi]
  case static =>
    by_cases h : d = tgt
    · simpa [advancePhase, applyAdvance, h] using htgt
    · simp only [advancePhase, if_neg h, applyAdvance, startAnimation]
      by_cases hcomp : nullishIdx d > nullishIdx tgt
      · simpa [hcomp] using hv
      · rw [if_neg hcomp]
        rcases hv with rfl | ⟨i, rfl, hi0, hiN⟩ <;>
          rcases htgt with rfl | ⟨j, rfl, hj0, hjN⟩
        · exact absurd rfl h
        · exact Or.inr ⟨nullishIdx none + 1, rfl, by simp [nullishIdx], by
            simp only [nullishIdx, Option.getD_none]
            omega⟩
        · exfalso
          simp only [nullishIdx, Option.getD_none, Option.getD_some, gt_iff_lt, not_lt] at hcomp
          omega
        · have hij : i ≠ j := fun hh => h (by rw [hh])
          simp only [nullishIdx, Option.getD_some, gt_iff_lt, not_lt] at hcomp
          exact Or.inr ⟨nullishIdx (some i) + 1, rfl, by
              simp only [nullishIdx, Option.getD_some]
              omega, by
              simp only [nullishIdx, Option.getD_some]
              omega⟩

theorem updateScrollerAnimation_preserves_validDoneIndex (goals : List GoalConfig)
    (m : UIModel) (hv : validDoneIndex goals m.animation.doneIndex) :
    validDoneIndex goals (updateScrollerAnimation goals m).animation.doneIndex := by
  unfold updateScrollerAnimation
  split
  · exact hv
  · rcases htp : m.totalPoints with - | tp
    · exact hv
    · have htgt : validDoneIndex goals (calculateDoneIndex goals tp) := by
        rcases hcalc : calculateDoneIndex goals tp with - | i
        · exact Or.inl rfl
        · exact Or.inr ⟨i, rfl, (calculateDoneIndex_some_range goals tp i hcalc).1,
            (calculateDoneIndex_some_range goals tp i hcalc).2⟩
      exact advancePhase_preserves_validDoneIndex goals m.animation
        (calculateDoneIndex goals tp) hv htgt

/-- C10: for a catalog of at least one goal, in every model state reachable
from startup the animation's done index is `null` or an integer in
`[0, N-1]`; in particular the upward transition never overshoots the
catalog and the downward transition never descends below `null`. -/
theorem reachable_doneIndex_in_range (goals : List GoalConfig) (hN : 1 ≤ goals.length)
    (m : UIModel) (hm : Reachable goals m) :
    validDoneIndex goals m.animation.doneIndex := by
  induction hm with
  | init p tp =>
    simp only [initAnimation]
    rcases hcalc : calculateDoneIndex goals p with - | i
    · exact Or.inl rfl
    · exact Or.inr ⟨i, rfl, (calculateDoneIndex_some_range goals p i hcalc).1,
        (calculateDoneIndex_some_range goals p i hcalc).2⟩
  | setPoints tp hm ih => exact ih
  | update hm ih => exact updateScrollerAnimation_preserves_validDoneIndex goals _ ih
  | expire hm ih => exact ih

/-- Witness for C10 at the three-goal catalog's initial state. -/
theorem reachable_doneIndex_in_range_witness :
    1 ≤ exampleCatalog.length ∧
    validDoneIndex exampleCatalog
      ((⟨some 250, initAnimation exampleCatalog 150⟩ : UIModel).animation.doneIndex) :=
  ⟨by decide,
    reachable_doneIndex_in_range exampleCatalog (by decide) _ (Reachable.init 150 (some 250))⟩

end GoalScroller
